import Mathlib

/-!
# Verification of the pickleball stats dashboard logic

Shallow embedding of the view-model logic in `src/routes/Dashboard.tsx`:
the fault tally (`changeFault`), the game submission flow (`addGame`),
the recent-games query (`loadGames`), and the cumulative fault-trend
aggregation (`faultTrendData`).  JavaScript numbers holding integer
counts are modelled as `Int`; the floating-point running averages are
modelled as exact rationals (`ℚ`); `played_at` timestamps are modelled
as the integer value of `new Date(played_at).getTime()`.
-/

namespace PBStats

/-- The five fault categories (`FaultKey` in Dashboard.tsx). -/
inductive FaultKey
  | serve
  | ret
  | net
  | long
  | setup
deriving DecidableEq, Repr

/-- The five counters of the fault tally (`Faults` in Dashboard.tsx).
The source field `return` is renamed `ret` (`return` is reserved in Lean). -/
structure Faults where
  serve : Int
  ret : Int
  net : Int
  long : Int
  setup : Int
deriving DecidableEq, Repr

/-- Read the counter named by a key (`prev[key]` in the source;
the `?? 0` fallback is the identity here because fields are non-null). -/
def getFault (f : Faults) : FaultKey → Int
  | .serve => f.serve
  | .ret => f.ret
  | .net => f.net
  | .long => f.long
  | .setup => f.setup

/-- Replace the counter named by a key (`{ ...prev, [key]: next }`). -/
def setFault (f : Faults) : FaultKey → Int → Faults
  | .serve, v => { f with serve := v }
  | .ret, v => { f with ret := v }
  | .net, v => { f with net := v }
  | .long, v => { f with long := v }
  | .setup, v => { f with setup := v }

/-- `changeFault` from Dashboard.tsx:
`next = Math.max(0, (prev[key] ?? 0) + delta)`. -/
def changeFault (key : FaultKey) (delta : Int) (prev : Faults) : Faults :=
  setFault prev key (max 0 (getFault prev key + delta))

/-- A user action on the tally: the `+` and `–` buttons of the fault
editor call `changeFault(key, +1)` and `changeFault(key, -1)`. -/
inductive FaultAction
  | inc (key : FaultKey)
  | dec (key : FaultKey)
deriving DecidableEq, Repr

/-- Apply one button press to the tally. -/
def applyFaultAction : FaultAction → Faults → Faults
  | .inc k, f => changeFault k 1 f
  | .dec k, f => changeFault k (-1) f

/-- Apply a sequence of button presses, left to right. -/
def applyFaultActions : List FaultAction → Faults → Faults
  | [], f => f
  | a :: rest, f => applyFaultActions rest (applyFaultAction a f)

/-- The all-zero tally: the `useState` initial value, also used to reset
the tally after a successful submission. -/
def zeroFaults : Faults := ⟨0, 0, 0, 0, 0⟩

/-- A row fetched by the recent-games query (`GameRow` in Dashboard.tsx).
`played_at` is the timestamp value `new Date(g.played_at).getTime()`. -/
structure GameRow where
  id : Int
  played_at : Int
  my_points : Int
  opp_points : Int
  location : Option String
  serve_faults : Int
  return_faults : Int
  into_net : Int
  too_long : Int
  setup_kill : Int
deriving DecidableEq, Repr

/-- `rowFaults` from Dashboard.tsx; the `?? 0` fallbacks are identities
because the row fields are non-null. -/
def rowFaults (g : GameRow) : Faults :=
  ⟨g.serve_faults, g.return_faults, g.into_net, g.too_long, g.setup_kill⟩

/-- One chart point of `faultTrendData`: a label derived from the
record's `played_at` (modelled as the timestamp itself) and six running
averages. -/
structure TrendPoint where
  label : Int
  serve : ℚ
  ret : ℚ
  net : ℚ
  long : ℚ
  setup : ℚ
  total : ℚ
deriving DecidableEq, Repr

/-- The sort comparator of `faultTrendData`:
`new Date(a.played_at).getTime() - new Date(b.played_at).getTime()`,
i.e. `a` may precede `b` iff its timestamp is not larger.  JS
`Array.prototype.sort` is a stable sort; it is embedded below as
`List.insertionSort rowLE`, which is stable and produces the unique
ascending reordering that keeps ties in input order. -/
def rowLE (a b : GameRow) : Prop :=
  a.played_at ≤ b.played_at

instance : DecidableRel rowLE := fun a b =>
  inferInstanceAs (Decidable (a.played_at ≤ b.played_at))

instance : IsTotal GameRow rowLE :=
  ⟨fun a b => Int.le_total a.played_at b.played_at⟩

instance : IsTrans GameRow rowLE :=
  ⟨fun _ _ _ h1 h2 => le_trans h1 h2⟩

/-- Pointwise sum of two fault-count tuples (the five `totals.x += f.x`
updates of the `.map` body). -/
def addFaults (t f : Faults) : Faults :=
  ⟨t.serve + f.serve, t.ret + f.ret, t.net + f.net, t.long + f.long,
    t.setup + f.setup⟩

/-- Sum of the five counters (`totalFaults` in the `.map` body). -/
def sumFaults (t : Faults) : Int :=
  t.serve + t.ret + t.net + t.long + t.setup

/-- The chart point built at 1-based position `n` with running sums `t`
and the current record's timestamp `lab`. -/
def mkTrendPoint (lab : Int) (t : Faults) (n : Nat) : TrendPoint :=
  { label := lab
    serve := (t.serve : ℚ) / n
    ret := (t.ret : ℚ) / n
    net := (t.net : ℚ) / n
    long := (t.long : ℚ) / n
    setup := (t.setup : ℚ) / n
    total := (sumFaults t : ℚ) / n }

/-- The `.map((g, idx) => ...)` loop of `faultTrendData`, with the
mutable `totals` record and the running index made explicit. -/
def trendGo : List GameRow → Faults → Nat → List TrendPoint
  | [], _, _ => []
  | g :: rest, totals, idx =>
    let t := addFaults totals (rowFaults g)
    mkTrendPoint g.played_at t (idx + 1) :: trendGo rest t (idx + 1)

/-- `faultTrendData` from Dashboard.tsx: early-return `[]` on an empty
list, otherwise sort a copy of `games` by `played_at` ascending (JS
`Array.prototype.sort` is stable, modelled by the stable
`List.insertionSort`) and emit one running-average point per record. -/
def faultTrendData (games : List GameRow) : List TrendPoint :=
  if games.length = 0 then []
  else trendGo (List.insertionSort rowLE games) zeroFaults 0

/-- The entry-form state of the dashboard: the `useState` hooks
`date`, `time`, `myPoints`, `oppPoints`, `location` and `faults`. -/
structure EntryState where
  date : String
  time : String
  myPoints : Int
  oppPoints : Int
  location : String
  faults : Faults
deriving DecidableEq, Repr

/-- The object passed to `supabase.from("games").insert(...)`. -/
structure GameInsert where
  user_id : String
  played_at : Int
  my_points : Int
  opp_points : Int
  location : Option String
  serve_faults : Int
  return_faults : Int
  into_net : Int
  too_long : Int
  setup_kill : Int
deriving DecidableEq, Repr

/-- Result of `supabase.auth.getUser()`: a collaborator error, a null
user, or a resolved identity. -/
inductive AuthResult
  | authError (msg : String)
  | noUser
  | user (uid : String)
deriving DecidableEq, Repr

/-- `location?.trim() || null`: the trimmed string, with the empty
string (falsy in JS) normalized to null.  `String.trim` models the
JS `trim`. -/
def normalizeLocation (s : String) : Option String :=
  let t := s.trim
  if t = "" then none else some t

/-- The record built inside `addGame` and handed to the store.
`toPA` models `toPlayedAt` (JS `Date` parsing of the date and time
strings, an environment concern the claims do not depend on). -/
def buildInsert (toPA : String → String → Int) (uid : String)
    (st : EntryState) : GameInsert :=
  { user_id := uid
    played_at := toPA st.date st.time
    my_points := st.myPoints
    opp_points := st.oppPoints
    location := normalizeLocation st.location
    serve_faults := st.faults.serve
    return_faults := st.faults.ret
    into_net := st.faults.net
    too_long := st.faults.long
    setup_kill := st.faults.setup }

/-- Outcome of one `addGame` call: the final form state, the error
message shown via `setError` (if any), the insert calls issued to the
store, and whether `loadGames()` was re-run. -/
structure AddGameResult where
  state : EntryState
  error : Option String
  attempts : List GameInsert
  refreshed : Bool
deriving DecidableEq, Repr

/-- `addGame` from Dashboard.tsx.  `auth` is the submission-time result
of `supabase.auth.getUser()` (re-resolved on every call, not cached);
`ins` is the store's response to the single insert of this call
(`some msg` models a `dbErr`).  On auth error or null user the function
throws before any insert; on insert failure it throws with the store's
message and leaves the form state untouched; on success it resets only
the fault tally and re-runs `loadGames`. -/
def addGame (toPA : String → String → Int) (auth : AuthResult)
    (ins : Option String) (st : EntryState) : AddGameResult :=
  match auth with
  | .authError msg => ⟨st, some msg, [], false⟩
  | .noUser => ⟨st, some "Not signed in", [], false⟩
  | .user uid =>
    let row := buildInsert toPA uid st
    match ins with
    | some msg => ⟨st, some msg, [row], false⟩
    | none => ⟨{ st with faults := zeroFaults }, none, [row], true⟩

/-- A row of the external `games` table: a `GameRow` plus the owning
`user_id` column (which the dashboard's select does not project). -/
structure StoredGame where
  user_id : String
  id : Int
  played_at : Int
  my_points : Int
  opp_points : Int
  location : Option String
  serve_faults : Int
  return_faults : Int
  into_net : Int
  too_long : Int
  setup_kill : Int
deriving DecidableEq, Repr

/-- The column projection of the select in `loadGames`. -/
def selectRow (s : StoredGame) : GameRow :=
  ⟨s.id, s.played_at, s.my_points, s.opp_points, s.location,
    s.serve_faults, s.return_faults, s.into_net, s.too_long, s.setup_kill⟩

/-- The descending order `.order("played_at", { ascending: false })`. -/
def storedGE (a b : StoredGame) : Prop :=
  b.played_at ≤ a.played_at

instance : DecidableRel storedGE := fun a b =>
  inferInstanceAs (Decidable (b.played_at ≤ a.played_at))

instance : IsTotal StoredGame storedGE :=
  ⟨fun a b => Int.le_total b.played_at a.played_at⟩

instance : IsTrans StoredGame storedGE :=
  ⟨fun _ _ _ h1 h2 => le_trans h2 h1⟩

/-- Relational semantics of the query builder chain in `loadGames`:
`.eq("user_id", user.id)`, `.order("played_at", { ascending: false })`,
`.limit(25)`, then the column projection of the select. -/
def gamesQuery (table : List StoredGame) (uid : String) : List GameRow :=
  (((List.insertionSort storedGE
      (table.filter fun r => r.user_id == uid)).take 25).map selectRow)

/-- Running sums accumulated over a record list (the net effect of the
`totals.x += f.x` updates across a prefix of the loop). -/
def accumFaults (t : Faults) (l : List GameRow) : Faults :=
  l.foldl (fun acc g => addFaults acc (rowFaults g)) t

/-- `loadGames` from Dashboard.tsx: re-resolve the identity, throw on an
auth error or a null user, run the query, throw on a store error
(`dbErr`, modelled as `some msg`), and otherwise set the list to
`data ?? []`. -/
def loadGames (auth : AuthResult) (dbErr : Option String)
    (table : List StoredGame) : Except String (List GameRow) :=
  match auth with
  | .authError msg => .error msg
  | .noUser => .error "Not signed in"
  | .user uid =>
    match dbErr with
    | some msg => .error msg
    | none => .ok (gamesQuery table uid)

/-! Helper lemmas -/

/-- One button press keeps every counter non-negative (the clamp
`Math.max(0, _)` floors the edited counter; the others are untouched). -/
theorem getFault_applyFaultAction_nonneg (a : FaultAction) (f : Faults)
    (h : ∀ k, 0 ≤ getFault f k) :
    ∀ k, 0 ≤ getFault (applyFaultAction a f) k := by
  intro k
  have hs := h .serve
  have hr := h .ret
  have hn := h .net
  have hl := h .long
  have hp := h .setup
  simp only [getFault] at hs hr hn hl hp
  cases a with
  | inc j =>
    cases j <;> cases k <;>
      simp only [applyFaultAction, changeFault, setFault, getFault] <;> omega
  | dec j =>
    cases j <;> cases k <;>
      simp only [applyFaultAction, changeFault, setFault, getFault] <;> omega

/-- A whole press sequence keeps every counter non-negative. -/
theorem getFault_applyFaultActions_nonneg (acts : List FaultAction)
    (f : Faults) (h : ∀ k, 0 ≤ getFault f k) :
    ∀ k, 0 ≤ getFault (applyFaultActions acts f) k := by
  induction acts generalizing f with
  | nil => exact h
  | cons a rest ih =>
    exact fun k => ih _ (getFault_applyFaultAction_nonneg a f h) k

/-! Claim theorems: fault tally and game submission -/

/-- C2: starting from the fresh all-zero tally, every one of the five
counters is ≥ 0 after any sequence of increment/decrement presses, and a
decrement applied to a counter at 0 leaves it at 0 (`changeFault` is
total, so no error is possible). -/
theorem faultTally_nonneg_and_clamp :
    (∀ (acts : List FaultAction) (k : FaultKey),
        0 ≤ getFault (applyFaultActions acts zeroFaults) k) ∧
    (∀ (f : Faults) (k : FaultKey), getFault f k = 0 →
        getFault (applyFaultAction (.dec k) f) k = 0) := by
  constructor
  · intro acts k
    exact getFault_applyFaultActions_nonneg acts zeroFaults
      (by intro k'; cases k' <;> decide) k
  · intro f k h
    cases k <;>
      simp only [applyFaultAction, changeFault, setFault, getFault] at * <;>
      omega

/-- Witness for C2: a decrement on the fresh tally's serve counter (at 0)
leaves it at 0. -/
theorem faultTally_nonneg_and_clamp_witness :
    getFault zeroFaults .serve = 0 ∧
    getFault (applyFaultAction (.dec .serve) zeroFaults) .serve = 0 :=
  ⟨by decide, faultTally_nonneg_and_clamp.2 zeroFaults .serve (by decide)⟩

/-- C3: when the store rejects the insert, `addGame` surfaces the store's
own message and leaves the whole form state — the fault tally included —
unchanged, without refreshing; when the insert succeeds it resets the
tally to all zeros, reports no error, and re-runs the recent-games
query. -/
theorem addGame_failure_preserves_success_resets
    (toPA : String → String → Int) (uid msg : String) (st : EntryState) :
    ((addGame toPA (.user uid) (some msg) st).error = some msg ∧
      (addGame toPA (.user uid) (some msg) st).state = st ∧
      (addGame toPA (.user uid) (some msg) st).refreshed = false) ∧
    ((addGame toPA (.user uid) none st).error = none ∧
      (addGame toPA (.user uid) none st).state.faults = zeroFaults ∧
      (addGame toPA (.user uid) none st).refreshed = true) :=
  ⟨⟨rfl, rfl, rfl⟩, ⟨rfl, rfl, rfl⟩⟩

/-- C4: when the submission-time identity check (re-run inside `addGame`
on every call, never cached from page load) resolves no user, `addGame`
fails with the unauthenticated message and issues no insert at all; an
identity-check error likewise stops the call before any insert. -/
theorem addGame_unauthenticated (toPA : String → String → Int)
    (ins : Option String) (st : EntryState) (msg : String) :
    (addGame toPA .noUser ins st).error = some "Not signed in" ∧
    (addGame toPA .noUser ins st).attempts = [] ∧
    (addGame toPA (.authError msg) ins st).attempts = [] :=
  ⟨rfl, rfl, rfl⟩

/-- C9: whatever the store answers, the single row `addGame` hands to the
store carries the trimmed location, normalized to null when the trimmed
string is empty; `normalizeLocation` never produces the empty string. -/
theorem addGame_location_normalized (toPA : String → String → Int)
    (uid : String) (ins : Option String) (st : EntryState) (s : String) :
    (addGame toPA (.user uid) ins st).attempts.map (fun r => r.location) =
      [if st.location.trim = "" then none else some st.location.trim] ∧
    normalizeLocation s ≠ some "" := by
  constructor
  · cases ins <;> rfl
  · intro hc
    simp only [normalizeLocation] at hc
    split at hc
    · exact Option.noConfusion hc
    · rename_i hne
      exact hne (Option.some.inj hc)

/-- Witness for C9: a padded location is stored trimmed; a blank
location is never stored as the empty string. -/
theorem addGame_location_normalized_witness :
    (addGame (fun _ _ => 0) (.user "u") none
        ⟨"2025-01-01", "10:00", 11, 8, "  Court 3  ", zeroFaults⟩).attempts.map
      (fun r => r.location) =
      [if ("  Court 3  " : String).trim = "" then none
        else some ("  Court 3  " : String).trim] ∧
    normalizeLocation " " ≠ some "" :=
  addGame_location_normalized (fun _ _ => 0) "u" none
    ⟨"2025-01-01", "10:00", 11, 8, "  Court 3  ", zeroFaults⟩ " "

/-- C10: a successful submission resets only the fault tally; the date,
time, score and location fields keep their pre-submission values. -/
theorem addGame_success_frame (toPA : String → String → Int)
    (uid : String) (st : EntryState) :
    (addGame toPA (.user uid) none st).state.date = st.date ∧
    (addGame toPA (.user uid) none st).state.time = st.time ∧
    (addGame toPA (.user uid) none st).state.myPoints = st.myPoints ∧
    (addGame toPA (.user uid) none st).state.oppPoints = st.oppPoints ∧
    (addGame toPA (.user uid) none st).state.location = st.location ∧
    (addGame toPA (.user uid) none st).state.faults = zeroFaults :=
  ⟨rfl, rfl, rfl, rfl, rfl, rfl⟩

/-! Helper lemmas for the trend aggregator -/

theorem accumFaults_eq (t : Faults) (l : List GameRow) :
    accumFaults t l =
      ⟨t.serve + (l.map (fun g => g.serve_faults)).sum,
        t.ret + (l.map (fun g => g.return_faults)).sum,
        t.net + (l.map (fun g => g.into_net)).sum,
        t.long + (l.map (fun g => g.too_long)).sum,
        t.setup + (l.map (fun g => g.setup_kill)).sum⟩ := by
  induction l generalizing t with
  | nil => simp [accumFaults]
  | cons g rest ih =>
    simp only [accumFaults, List.foldl_cons] at *
    rw [ih]
    simp only [addFaults, rowFaults, List.map_cons, List.sum_cons,
      Faults.mk.injEq]
    refine ⟨?_, ?_, ?_, ?_, ?_⟩ <;> ring

/-- The aggregation loop emits one point per record. -/
theorem length_trendGo (l : List GameRow) (t : Faults) (i : Nat) :
    (trendGo l t i).length = l.length := by
  induction l generalizing t i with
  | nil => rfl
  | cons g rest ih => simp [trendGo, ih]

/-- The point at index `i` of the aggregation loop: its label is the
`i`-th record's timestamp, its sums accumulate the first `i + 1`
records, and its divisor is the 1-based position. -/
theorem trendGo_getElem (l : List GameRow) (t : Faults) (idx i : Nat)
    (h : i < l.length) :
    (trendGo l t idx)[i]? =
      some (mkTrendPoint (l.get ⟨i, h⟩).played_at
        (accumFaults t (l.take (i + 1))) (idx + i + 1)) := by
  induction l generalizing t idx i with
  | nil => exact absurd h (by simp)
  | cons g rest ih =>
    cases i with
    | zero =>
      simp [trendGo, accumFaults]
    | succ j =>
      have hj : j < rest.length := Nat.lt_of_succ_lt_succ h
      have := ih (addFaults t (rowFaults g)) (idx + 1) j hj
      simp only [trendGo, List.getElem?_cons_succ]
      rw [this]
      have harith : idx + 1 + j + 1 = idx + (j + 1) + 1 := by omega
      simp [accumFaults, harith]

/-- No record, no chart point. -/
theorem length_faultTrendData (games : List GameRow) :
    (faultTrendData games).length = games.length := by
  by_cases hg : games.length = 0
  · simp [faultTrendData, hg]
  · simp [faultTrendData, hg, length_trendGo]

/-! Claim theorems: trend aggregator -/

/-- C8: the aggregator maps the empty list to the empty list (no error),
and a single record to exactly one point whose per-category averages are
the record's own counts and whose total is the sum of its five counts. -/
theorem faultTrendData_empty_and_single (g : GameRow) :
    faultTrendData [] = [] ∧
    faultTrendData [g] =
      [{ label := g.played_at
         serve := (g.serve_faults : ℚ)
         ret := (g.return_faults : ℚ)
         net := (g.into_net : ℚ)
         long := (g.too_long : ℚ)
         setup := (g.setup_kill : ℚ)
         total := ((g.serve_faults + g.return_faults + g.into_net +
            g.too_long + g.setup_kill : Int) : ℚ) }] := by
  constructor
  · rfl
  · simp [faultTrendData, trendGo, mkTrendPoint, addFaults, rowFaults,
      sumFaults, zeroFaults, List.insertionSort]

/-- C1: for a non-empty input, at every 0-based index `i` (1-based
position `k = i + 1`) of the chronologically sorted sequence, each
per-category running average equals that category's summed counts over
the first `k` sorted records divided by `k`, and the total average is
the sum of the five per-category running sums divided by `k`; one point
is emitted per record. -/
theorem faultTrendData_running_average (games : List GameRow) (i : Nat)
    (h : i < games.length) :
    (faultTrendData games).length = games.length ∧
    ∃ p, (faultTrendData games)[i]? = some p ∧
      p.serve = ((((List.insertionSort rowLE games).take (i + 1)).map
        (fun g => g.serve_faults)).sum : ℚ) / (i + 1 : ℚ) ∧
      p.ret = ((((List.insertionSort rowLE games).take (i + 1)).map
        (fun g => g.return_faults)).sum : ℚ) / (i + 1 : ℚ) ∧
      p.net = ((((List.insertionSort rowLE games).take (i + 1)).map
        (fun g => g.into_net)).sum : ℚ) / (i + 1 : ℚ) ∧
      p.long = ((((List.insertionSort rowLE games).take (i + 1)).map
        (fun g => g.too_long)).sum : ℚ) / (i + 1 : ℚ) ∧
      p.setup = ((((List.insertionSort rowLE games).take (i + 1)).map
        (fun g => g.setup_kill)).sum : ℚ) / (i + 1 : ℚ) ∧
      p.total = (((((List.insertionSort rowLE games).take (i + 1)).map
          (fun g => g.serve_faults)).sum +
        (((List.insertionSort rowLE games).take (i + 1)).map
          (fun g => g.return_faults)).sum +
        (((List.insertionSort rowLE games).take (i + 1)).map
          (fun g => g.into_net)).sum +
        (((List.insertionSort rowLE games).take (i + 1)).map
          (fun g => g.too_long)).sum +
        (((List.insertionSort rowLE games).take (i + 1)).map
          (fun g => g.setup_kill)).sum : Int) : ℚ) / (i + 1 : ℚ) := by
  refine ⟨length_faultTrendData games, ?_⟩
  have hne : ¬ games.length = 0 := by omega
  have hs : i < (List.insertionSort rowLE games).length := by
    simpa using h
  refine ⟨mkTrendPoint ((List.insertionSort rowLE games).get ⟨i, hs⟩).played_at
      (accumFaults zeroFaults ((List.insertionSort rowLE games).take (i + 1)))
      (0 + i + 1), ?_, ?_, ?_, ?_, ?_, ?_, ?_⟩
  · rw [faultTrendData, if_neg hne]
    exact trendGo_getElem (List.insertionSort rowLE games) zeroFaults 0 i hs
  all_goals
    simp only [mkTrendPoint, accumFaults_eq, zeroFaults, sumFaults,
      Int.zero_add, zero_add]
    push_cast
    simp only [List.map_map, Function.comp_def]
    try ring

/-- Witness for C1 on a concrete two-record input. -/
theorem faultTrendData_running_average_witness :
    1 < ([⟨1, 10, 11, 8, none, 2, 0, 1, 0, 0⟩,
      ⟨2, 20, 9, 11, some "Court 3", 4, 1, 0, 0, 1⟩] : List GameRow).length ∧
    (faultTrendData [⟨1, 10, 11, 8, none, 2, 0, 1, 0, 0⟩,
      ⟨2, 20, 9, 11, some "Court 3", 4, 1, 0, 0, 1⟩]).length =
      ([⟨1, 10, 11, 8, none, 2, 0, 1, 0, 0⟩,
        ⟨2, 20, 9, 11, some "Court 3", 4, 1, 0, 0, 1⟩] : List GameRow).length :=
  ⟨by decide,
    (faultTrendData_running_average
      [⟨1, 10, 11, 8, none, 2, 0, 1, 0, 0⟩,
        ⟨2, 20, 9, 11, some "Court 3", 4, 1, 0, 0, 1⟩] 1 (by decide)).1⟩

/-! Helper lemmas for the sort order -/

/-- The emitted labels are, in order, the timestamps of the records the
loop visits. -/
theorem trendGo_map_label (l : List GameRow) (t : Faults) (i : Nat) :
    (trendGo l t i).map (fun p => p.label) = l.map (fun g => g.played_at) := by
  induction l generalizing t i with
  | nil => rfl
  | cons g rest ih => simp [trendGo, mkTrendPoint, ih]

/-- The output sequence follows the sorted record sequence. -/
theorem faultTrendData_map_label (games : List GameRow) :
    (faultTrendData games).map (fun p => p.label) =
      (List.insertionSort rowLE games).map (fun g => g.played_at) := by
  by_cases hg : games.length = 0
  · rw [List.length_eq_zero] at hg
    subst hg
    simp [faultTrendData]
  · simp [faultTrendData, hg, trendGo_map_label]

/-- The sorted copy is ascending in `played_at`. -/
theorem insertionSort_pairwise_le (games : List GameRow) :
    (List.insertionSort rowLE games).Pairwise
      (fun a b => a.played_at ≤ b.played_at) :=
  List.sorted_insertionSort rowLE games

/-! Claim theorems: sort order and stability -/

/-- C5: the aggregator sorts the input ascending by `played_at` with a
stable sort — the sorted copy is a permutation of the input, is
ascending, and for every timestamp the records carrying it keep their
original relative order — and the emitted points follow this sorted
order. -/
theorem faultTrendData_stable_sort (games : List GameRow) :
    (List.insertionSort rowLE games).Perm games ∧
    (List.insertionSort rowLE games).Pairwise
      (fun a b => a.played_at ≤ b.played_at) ∧
    (∀ ts : Int, (List.insertionSort rowLE games).filter
        (fun g => g.played_at == ts) =
      games.filter (fun g => g.played_at == ts)) ∧
    (faultTrendData games).map (fun p => p.label) =
      (List.insertionSort rowLE games).map (fun g => g.played_at) := by
  refine ⟨List.perm_insertionSort rowLE games, insertionSort_pairwise_le games,
    ?_, faultTrendData_map_label games⟩
  intro ts
  have hpw : (games.filter (fun g => g.played_at == ts)).Pairwise rowLE := by
    apply List.pairwise_of_forall_mem_list
    intro a ha b hb
    have ha' := (List.mem_filter.mp ha).2
    have hb' := (List.mem_filter.mp hb).2
    simp only [beq_iff_eq] at ha' hb'
    simp [rowLE, ha', hb']
  have hsub : List.Sublist (games.filter (fun g => g.played_at == ts))
      (List.insertionSort rowLE games) :=
    List.sublist_insertionSort hpw (List.filter_sublist games)
  have h1 := hsub.filter (fun g => g.played_at == ts)
  rw [List.filter_filter] at h1
  simp only [Bool.and_self] at h1
  have hlen : ((List.insertionSort rowLE games).filter
        (fun g => g.played_at == ts)).length =
      (games.filter (fun g => g.played_at == ts)).length :=
    ((List.perm_insertionSort rowLE games).filter _).length_eq
  exact (h1.eq_of_length hlen.symm).symm

/-! Claim theorems: recent-games query -/

/-- C6: the recent-games query returns at most 25 rows, every returned
row is the projection of a table row owned by the requesting identity,
the rows come in descending `played_at` order, and a user with no rows
gets an empty list, not an error. -/
theorem loadGames_query_spec (table : List StoredGame) (uid : String) :
    (gamesQuery table uid).length ≤ 25 ∧
    (gamesQuery table uid).Pairwise (fun a b => b.played_at ≤ a.played_at) ∧
    (∀ g ∈ gamesQuery table uid,
      ∃ s, s ∈ table ∧ s.user_id = uid ∧ selectRow s = g) ∧
    ((∀ s ∈ table, s.user_id ≠ uid) →
      loadGames (.user uid) none table = .ok []) := by
  refine ⟨?_, ?_, ?_, ?_⟩
  · simp only [gamesQuery, List.length_map, List.length_take]
    exact Nat.min_le_left _ _
  · have hsorted : (List.insertionSort storedGE
        (table.filter fun r => r.user_id == uid)).Pairwise storedGE :=
      List.sorted_insertionSort storedGE _
    have htake := hsorted.sublist (List.take_sublist 25 _)
    simp only [gamesQuery]
    rw [List.pairwise_map]
    exact htake.imp (fun hab => hab)
  · intro g hg
    simp only [gamesQuery, List.mem_map] at hg
    obtain ⟨s, hs, rfl⟩ := hg
    have hs2 : s ∈ List.insertionSort storedGE
        (table.filter fun r => r.user_id == uid) :=
      (List.take_sublist 25 _).mem hs
    rw [List.mem_insertionSort] at hs2
    have hmem := List.mem_filter.mp hs2
    exact ⟨s, hmem.1, by simpa using hmem.2, rfl⟩
  · intro hnone
    have hfil : (table.filter fun r => r.user_id == uid) = [] := by
      rw [List.filter_eq_nil_iff]
      intro s hs
      simpa using hnone s hs
    simp [loadGames, gamesQuery, hfil, List.insertionSort]

/-- Witness for C6: a user with no rows in the table gets `ok []`. -/
theorem loadGames_query_spec_witness :
    loadGames (.user "bob") none
      [⟨"alice", 1, 10, 11, 8, none, 0, 0, 0, 0, 0⟩] = .ok [] :=
  (loadGames_query_spec [⟨"alice", 1, 10, 11, 8, none, 0, 0, 0, 0, 0⟩]
    "bob").2.2.2 (by decide)

/-! Claim theorems: determinism of the aggregator -/

/-- C7 as stated is false: two input lists that are permutations of each
other but share a `played_at` timestamp produce different outputs — the
stable sort keeps each input's own tie order, so the first point's serve
average is 0 in one run and 2 in the other. -/
theorem faultTrendData_perm_counterexample :
    ([⟨1, 0, 11, 8, none, 0, 0, 0, 0, 0⟩,
      ⟨2, 0, 11, 8, none, 2, 0, 0, 0, 0⟩] : List GameRow).Perm
      [⟨2, 0, 11, 8, none, 2, 0, 0, 0, 0⟩,
       ⟨1, 0, 11, 8, none, 0, 0, 0, 0, 0⟩] ∧
    faultTrendData [⟨1, 0, 11, 8, none, 0, 0, 0, 0, 0⟩,
      ⟨2, 0, 11, 8, none, 2, 0, 0, 0, 0⟩] ≠
    faultTrendData [⟨2, 0, 11, 8, none, 2, 0, 0, 0, 0⟩,
      ⟨1, 0, 11, 8, none, 0, 0, 0, 0, 0⟩] := by
  refine ⟨List.Perm.swap _ _ _, fun hEq => ?_⟩
  have h1 := congrArg (fun l => (l.map (fun p => p.serve))[0]?) hEq
  simp only [faultTrendData, List.insertionSort, List.orderedInsert, rowLE,
    trendGo, mkTrendPoint, addFaults, rowFaults, zeroFaults, sumFaults,
    List.length_cons, List.length_nil, List.map_cons,
    List.getElem?_cons_zero, Option.some.injEq] at h1
  norm_num at h1

/-- C7 amended: on input sets in which no two records share a
`played_at` timestamp, the aggregator is order-independent — permuted
inputs yield identical output — and the output follows ascending
`played_at` order. -/
theorem faultTrendData_perm_invariant (l₁ l₂ : List GameRow)
    (hperm : l₁.Perm l₂)
    (hnd : (l₁.map (fun g => g.played_at)).Nodup) :
    faultTrendData l₁ = faultTrendData l₂ ∧
    ((faultTrendData l₁).map (fun p => p.label)).Pairwise (· ≤ ·) := by
  have hlt : ∀ l : List GameRow, (l.map (fun g => g.played_at)).Nodup →
      (List.insertionSort rowLE l).Pairwise
        (fun a b => a.played_at < b.played_at) := by
    intro l hl
    have hsorted := insertionSort_pairwise_le l
    have hnd0 : ((List.insertionSort rowLE l).map
        (fun g => g.played_at)).Nodup :=
      (((List.perm_insertionSort rowLE l).map
        (fun g => g.played_at)).nodup_iff).mpr hl
    have hnd' : ((List.insertionSort rowLE l).map
        (fun g => g.played_at)).Pairwise (fun a b => a ≠ b) := hnd0
    have hne := List.pairwise_map.mp hnd'
    exact (hsorted.and hne).imp (fun h => lt_of_le_of_ne h.1 h.2)
  have key : List.insertionSort rowLE l₁ = List.insertionSort rowLE l₂ := by
    have p : (List.insertionSort rowLE l₁).Perm
        (List.insertionSort rowLE l₂) :=
      ((List.perm_insertionSort rowLE l₁).trans hperm).trans
        (List.perm_insertionSort rowLE l₂).symm
    have hnd₂ : (l₂.map (fun g => g.played_at)).Nodup :=
      ((hperm.map (fun g => g.played_at)).nodup_iff).mp hnd
    haveI : IsAntisymm GameRow (fun a b => a.played_at < b.played_at) :=
      ⟨fun a b h1 h2 => absurd h2 (not_lt.mpr (le_of_lt h1))⟩
    exact List.eq_of_perm_of_sorted p (hlt l₁ hnd) (hlt l₂ hnd₂)
  constructor
  · simp only [faultTrendData, hperm.length_eq, key]
  · rw [faultTrendData_map_label, List.pairwise_map]
    exact (insertionSort_pairwise_le l₁).imp (fun h => h)

/-- Witness for C7 on two permuted tie-free inputs. -/
theorem faultTrendData_perm_invariant_witness :
    faultTrendData [⟨1, 10, 11, 8, none, 2, 0, 1, 0, 0⟩,
      ⟨2, 20, 9, 11, none, 4, 1, 0, 0, 1⟩] =
    faultTrendData [⟨2, 20, 9, 11, none, 4, 1, 0, 0, 1⟩,
      ⟨1, 10, 11, 8, none, 2, 0, 1, 0, 0⟩] ∧
    ((faultTrendData [⟨1, 10, 11, 8, none, 2, 0, 1, 0, 0⟩,
      ⟨2, 20, 9, 11, none, 4, 1, 0, 0, 1⟩]).map
        (fun p => p.label)).Pairwise (· ≤ ·) :=
  faultTrendData_perm_invariant
    [⟨1, 10, 11, 8, none, 2, 0, 1, 0, 0⟩,
      ⟨2, 20, 9, 11, none, 4, 1, 0, 0, 1⟩]
    [⟨2, 20, 9, 11, none, 4, 1, 0, 0, 1⟩,
      ⟨1, 10, 11, 8, none, 2, 0, 1, 0, 0⟩]
    (List.Perm.swap _ _ _) (by decide)

end PBStats
